import Mathlib

/-!
Verification of the divide-and-conquer color discovery core of the
color-swatches repository (src/App.jsx, hook useColorsDivideAndConquer).

The JavaScript effect body is embedded shallowly: the mutable variables of
one generation (cacheRef.current, seen, the colors state, the loading flag)
become fields of an explicit state record St, and every function of the
source becomes a Lean function threading that state.  Asynchronous sampler
calls are modelled by a total function from hue to Option Color (none is a
SamplerFailure / rejected fetch); a rejected await is an Except.error that
propagates exactly as a rejected promise does.  Promise.all of two sibling
searches is modelled by running the left subtree to completion, then the
right, and combining the two outcomes with promiseAll: both subtrees run
their side effects in full even when one fails, and the combined result is
an error as soon as either branch is, which matches the JavaScript event
loop for point-disjoint siblings (the recursion only ever runs sibling
searches over disjoint intervals, so this sequentialisation preserves
sampler-call counts and final state).  Recursion depth is paid for by an
explicit fuel argument; fuel-independence for any fuel larger than the
interval length is proved below and is the termination theorem.
-/

namespace ColorSwatches

/-- A color value as returned by the color API: name models the
name.value field that defines identity, and h models the hsl.h field
used by colorsSorted. -/
structure Color where
  name : String
  h : Nat
deriving DecidableEq, Repr

/-- The mutable state owned by one run of the useColorsDivideAndConquer
effect: cache models cacheRef.current (an association of hue to fetched
color), fetches counts the fetchColor network calls issued, seen models
the local Set of names, colors models the colors React state, and loading
models the loading React state. -/
structure St where
  cache : List (Nat × Color)
  fetches : Nat
  seen : List String
  colors : List Color
  loading : Bool
deriving DecidableEq, Repr

/-- Lookup of a hue in the cache, the Map.has / Map.get pair of the
source expressed on the association list. -/
def lookupHue : List (Nat × Color) → Nat → Option Color
  | [], _ => none
  | (k, c) :: rest, hue => if k = hue then some c else lookupHue rest hue

/-- The state at the start of a new generation: the effect body first runs
setColors([]), setLoading(true) and cacheRef.current.clear(), and the seen
set of the new closure is empty (App.jsx lines 135 to 139). -/
def newGenerationInit : St :=
  { cache := [], fetches := 0, seen := [], colors := [], loading := true }

/-- Embedding of getColor (App.jsx lines 145 to 150): on a cache hit the
cached color is returned with no fetch; on a miss a fetch is issued (the
fetch counter increments), a failing sampler rejects before the cache
write, and a successful sampler result is written to the cache and
returned. -/
def getColor (sampler : Nat → Option Color) (hue : Nat) (s : St) :
    Except Unit Color × St :=
  match lookupHue s.cache hue with
  | some c => (Except.ok c, s)
  | none =>
    match sampler hue with
    | none => (Except.error (), { s with fetches := s.fetches + 1 })
    | some data =>
      (Except.ok data,
        { s with fetches := s.fetches + 1, cache := (hue, data) :: s.cache })

/-- Embedding of the write-back line of getColor in isolation
(cacheRef.current.set(hue, data), App.jsx line 148): the continuation that
runs after the awaited fetch resolves, with no generation or cancellation
guard. -/
def getColorResolve (hue : Nat) (data : Color) (s : St) : St :=
  { s with cache := (hue, data) :: s.cache }

/-- Embedding of fetchColor under the generation's abort signal (App.jsx
lines 20 to 22 with lines 197 to 200): the cleanup that sets the cancelled
flag also aborts the AbortController whose signal every fetchColor call of
the generation carries, so once cancellation is signaled every fetchColor
call rejects immediately without sampling.  An execution in which
cancellation has been signaled is therefore embedded by passing the flag
as true together with this sampler, which rejects every call. -/
def abortedSampler (sampler : Nat → Option Color) (cancelled : Bool) :
    Nat → Option Color :=
  fun hue => if cancelled then none else sampler hue

/-- Embedding of addColorIfUnique (App.jsx lines 153 to 158): a color is
appended to the colors state only when its name is not yet in the seen
set. -/
def addColorIfUnique (color : Color) (s : St) : St :=
  if color.name ∈ s.seen then s
  else { s with seen := color.name :: s.seen, colors := s.colors ++ [color] }

/-- The midpoint computed at the split (App.jsx line 174):
Math.floor((start + end) / 2), which on naturals is truncating division. -/
def midSplit (start e : Nat) : Nat := (start + e) / 2

/-- Combination of the two outcomes of Promise.all over the two sibling
recursive calls: the join resolves only when both resolve and rejects when
either rejects. -/
def promiseAll : Except Unit Unit → Except Unit Unit → Except Unit Unit
  | Except.ok _, Except.ok _ => Except.ok ()
  | _, _ => Except.error ()

/-- Embedding of findIntervals (App.jsx lines 161 to 180).  The body first
awaits getColor(start), then getColor(end) (the source awaits them one
after the other); a rejection of either await rejects the whole call, as
in JavaScript.  It then reads the cancelled closure variable once, before
any emission; if the names agree the start color is emitted once, if the
interval has no interior point both colors are emitted, and otherwise the
interval is split at midSplit and both halves are searched, the call
returning only when both subcalls have settled.  The cancelled variable is
a parameter because the source reads a closure variable the search never
writes; since the cleanup that sets that variable also aborts the fetch
signal, executions after cancellation instantiate the flag as true
together with abortedSampler, never with a sampler that still succeeds.
Fuel bounds the recursion depth and is shown irrelevant once it exceeds
the interval length. -/
def findIntervals (sampler : Nat → Option Color) (cancelled : Bool) :
    Nat → Nat → Nat → St → Except Unit Unit × St
  | 0, _, _, s => (Except.error (), s)
  | fuel + 1, start, e, s =>
    let p1 := getColor sampler start s
    match p1.1 with
    | Except.error _ => (Except.error (), p1.2)
    | Except.ok colorStart =>
      let p2 := getColor sampler e p1.2
      match p2.1 with
      | Except.error _ => (Except.error (), p2.2)
      | Except.ok colorEnd =>
        if cancelled then (Except.ok (), p2.2)
        else if colorStart.name = colorEnd.name then
          (Except.ok (), addColorIfUnique colorStart p2.2)
        else if e - start ≤ 1 then
          (Except.ok (), addColorIfUnique colorEnd (addColorIfUnique colorStart p2.2))
        else
          let mid := midSplit start e
          let left := findIntervals sampler cancelled fuel start mid p2.2
          let right := findIntervals sampler cancelled fuel (mid + 1) e left.2
          (promiseAll left.1 right.1, right.2)

/-- The root split point Math.floor(359 / 2) of App.jsx line 186. -/
def rootMid : Nat := 359 / 2

/-- Embedding of the settle continuation of the root Promise.all (App.jsx
lines 191 to 193): the loading flag is cleared only when the cancelled
closure variable is still false. -/
def settleClearLoading (cancelled : Bool) (s : St) : St :=
  if cancelled then s else { s with loading := false }

/-- Embedding of one whole run of the effect body (App.jsx lines 134 to
194): reset the per-generation state, run the two root searches over
[0, rootMid] and [rootMid + 1, 359], and clear the loading flag on the ok
settle of their join; a rejected join skips the continuation, exactly as
an awaited Promise.all that rejects skips the rest of the async function.
Fuel 360 exceeds every interval length that can occur. -/
def runGeneration (sampler : Nat → Option Color) (cancelled : Bool) : St :=
  let left := findIntervals sampler cancelled 360 0 rootMid newGenerationInit
  let right := findIntervals sampler cancelled 360 (rootMid + 1) 359 left.2
  match promiseAll left.1 right.1 with
  | Except.ok _ => settleClearLoading cancelled right.2
  | Except.error _ => right.2

/-- Two invocations of getColor for the same hue interleaved as the event
loop schedules two concurrent callers: both run the synchronous cache
check of line 146 before either fetch has resolved, so on a shared miss
each issues its own fetch and each write-back of line 148 runs when its
fetch resolves (a Map.set of the same key twice; the association list
shadows the earlier pair, which is the same map). -/
def twoConcurrentGets (sampler : Nat → Option Color) (hue : Nat) (s : St) :
    Except Unit (Color × Color) × St :=
  match lookupHue s.cache hue with
  | some c => (Except.ok (c, c), s)
  | none =>
    match sampler hue with
    | none => (Except.error (), { s with fetches := s.fetches + 2 })
    | some data =>
      (Except.ok (data, data),
        { s with fetches := s.fetches + 2,
                 cache := (hue, data) :: (hue, data) :: s.cache })

/-- The relation the colorsSorted memo sorts by (the comparator
(a, b) => a.hsl.h - b.hsl.h of App.jsx line 205). -/
def hueLE (a b : Color) : Prop := a.h ≤ b.h

instance : DecidableRel hueLE := fun a b => Nat.decLe a.h b.h

instance : IsTotal Color hueLE := ⟨fun a b => Nat.le_total a.h b.h⟩

instance : IsTrans Color hueLE := ⟨fun _ _ _ => Nat.le_trans⟩

/-- Embedding of the colorsSorted memo (App.jsx lines 204 to 206): on
every read the colors state is sorted by the h field. -/
def colorsSorted (colors : List Color) : List Color :=
  colors.insertionSort hueLE

/-- Folding a sequence of emissions into the aggregator state, one
addColorIfUnique call per emitted color, in emission order. -/
def addAll (cs : List Color) (s : St) : St :=
  cs.foldl (fun t d => addColorIfUnique d t) s

/-- Embedding of the useDebounce timer protocol (App.jsx lines 56 to 69)
over the times of a burst of context updates: every update arms a timer
for its own time plus the delay, and the effect cleanup triggered by the
next update clears the previous timer, so the timer armed at t1 fires only
when the following update at t2 does not arrive strictly before t1 plus
the delay; the timer of the last update always fires.  The returned list
holds the firing times of the timers that survive, each of which updates
the debounced value and hence opens one generation. -/
def debounceFireTimes (delay : Nat) : List Nat → List Nat
  | [] => []
  | [t] => [t + delay]
  | t1 :: t2 :: rest =>
    (if t1 + delay ≤ t2 then [t1 + delay] else []) ++
      debounceFireTimes delay (t2 :: rest)

/-- The number of generations a burst of updates opens: one per surviving
timer. -/
def debounceFires (delay : Nat) (ts : List Nat) : Nat :=
  (debounceFireTimes delay ts).length

/-- A sampler that succeeds everywhere with one fixed name, for concrete
evaluations. -/
def uniformSampler : Nat → Option Color := fun p => some ⟨"X", p⟩

/-- A sampler that fails at hue 0 and succeeds with one fixed name
everywhere else, for concrete evaluations. -/
def failAtZero : Nat → Option Color :=
  fun p => if p = 0 then none else some ⟨"X", p⟩

/-- A color fetched under a superseded context, for concrete evaluations of
the stale write-back scenario. -/
def staleColor : Color := ⟨"Old Red", 5⟩

/-- The sampler of the superseding generation, which disagrees with
staleColor at every hue, for concrete evaluations. -/
def newSampler : Nat → Option Color := fun p => some ⟨"New Red", p⟩

/-- A state whose cache already holds a resolved entry for hue 7, for
concrete evaluations of the resolved-entry dedup. -/
def cachedSt : St :=
  { cache := [(7, ⟨"X", 7⟩)], fetches := 1, seen := [], colors := [], loading := true }

/-! Theorems. -/

/-- Unfolding equation of findIntervals at positive fuel. -/
theorem findIntervals_succ (sampler : Nat → Option Color) (cancelled : Bool)
    (fuel start e : Nat) (s : St) :
    findIntervals sampler cancelled (fuel + 1) start e s =
      (let p1 := getColor sampler start s
       match p1.1 with
       | Except.error _ => (Except.error (), p1.2)
       | Except.ok colorStart =>
         let p2 := getColor sampler e p1.2
         match p2.1 with
         | Except.error _ => (Except.error (), p2.2)
         | Except.ok colorEnd =>
           if cancelled then (Except.ok (), p2.2)
           else if colorStart.name = colorEnd.name then
             (Except.ok (), addColorIfUnique colorStart p2.2)
           else if e - start ≤ 1 then
             (Except.ok (), addColorIfUnique colorEnd (addColorIfUnique colorStart p2.2))
           else
             let mid := midSplit start e
             let left := findIntervals sampler cancelled fuel start mid p2.2
             let right := findIntervals sampler cancelled fuel (mid + 1) e left.2
             (promiseAll left.1 right.1, right.2)) := rfl

/-- getColor touches only the cache and the fetch counter: the colors
state, the seen set and the loading flag are untouched. -/
theorem getColor_sideeffects (sampler : Nat → Option Color) (hue : Nat) (s : St) :
    (getColor sampler hue s).2.colors = s.colors ∧
    (getColor sampler hue s).2.seen = s.seen ∧
    (getColor sampler hue s).2.loading = s.loading := by
  unfold getColor
  split
  · simp
  · split <;> simp

/-- With the cancelled flag set, findIntervals emits nothing: the colors
state, the seen set and the loading flag come out unchanged (the cache and
fetch counter may still grow, since the flag is only read after the two
awaits). -/
theorem findIntervals_cancelled_no_emit (sampler : Nat → Option Color)
    (fuel start e : Nat) (s : St) :
    (findIntervals sampler true fuel start e s).2.colors = s.colors ∧
    (findIntervals sampler true fuel start e s).2.seen = s.seen ∧
    (findIntervals sampler true fuel start e s).2.loading = s.loading := by
  cases fuel with
  | zero => exact ⟨rfl, rfl, rfl⟩
  | succ f =>
    rw [findIntervals_succ]
    dsimp only
    obtain ⟨hc1, hs1, hl1⟩ := getColor_sideeffects sampler start s
    obtain ⟨hc2, hs2, hl2⟩ :=
      getColor_sideeffects sampler e (getColor sampler start s).2
    cases hr1 : (getColor sampler start s).1 with
    | error u => exact ⟨hc1, hs1, hl1⟩
    | ok colorStart =>
      cases hr2 : (getColor sampler e (getColor sampler start s).2).1 with
      | error u => exact ⟨hc2.trans hc1, hs2.trans hs1, hl2.trans hl1⟩
      | ok colorEnd =>
        exact ⟨hc2.trans hc1, hs2.trans hs1, hl2.trans hl1⟩

/-- Fuel irrelevance of findIntervals: any two fuels strictly larger than
the interval length give equal results, because each split strictly
shrinks the interval, so the recursion depth never exceeds the interval
length. -/
theorem findIntervals_fuel_congr (sampler : Nat → Option Color) (cancelled : Bool) :
    ∀ (fuel1 fuel2 start e : Nat) (s : St),
      e - start < fuel1 → e - start < fuel2 →
      findIntervals sampler cancelled fuel1 start e s =
        findIntervals sampler cancelled fuel2 start e s := by
  intro fuel1
  induction fuel1 with
  | zero => intro fuel2 start e s h1 h2; omega
  | succ f ih =>
    intro fuel2 start e s h1 h2
    cases fuel2 with
    | zero => omega
    | succ g =>
      rw [findIntervals_succ, findIntervals_succ]
      dsimp only
      cases hr1 : (getColor sampler start s).1 with
      | error u => rfl
      | ok colorStart =>
        cases hr2 : (getColor sampler e (getColor sampler start s).2).1 with
        | error u => rfl
        | ok colorEnd =>
          dsimp only
          by_cases hcan : cancelled = true
          · rw [if_pos hcan, if_pos hcan]
          · rw [if_neg hcan, if_neg hcan]
            by_cases hname : colorStart.name = colorEnd.name
            · rw [if_pos hname, if_pos hname]
            · rw [if_neg hname, if_neg hname]
              by_cases hlen : e - start ≤ 1
              · rw [if_pos hlen, if_pos hlen]
              · rw [if_neg hlen, if_neg hlen]
                have hm1 : midSplit start e - start < e - start := by
                  unfold midSplit; omega
                have hm2 : e - (midSplit start e + 1) < e - start := by
                  unfold midSplit; omega
                rw [ih g start (midSplit start e)
                  (getColor sampler e (getColor sampler start s).2).2
                  (by omega) (by omega)]
                rw [ih g (midSplit start e + 1) e
                  (findIntervals sampler cancelled g start (midSplit start e)
                    (getColor sampler e (getColor sampler start s).2).2).2
                  (by omega) (by omega)]

/-- C10: the recursive interval search terminates: when the interval has
length at least two, both subintervals produced by the split at midSplit
are strictly shorter than the interval, and the search result is
independent of any recursion-depth budget strictly larger than the
interval length (in particular intervals of length at most one never
recurse, so depth interval-length plus one always suffices). -/
theorem C10_search_terminates (sampler : Nat → Option Color) (cancelled : Bool)
    (start e fuel1 fuel2 : Nat) (s : St) :
    (2 ≤ e - start →
      midSplit start e - start < e - start ∧
      e - (midSplit start e + 1) < e - start) ∧
    (e - start < fuel1 → e - start < fuel2 →
      findIntervals sampler cancelled fuel1 start e s =
        findIntervals sampler cancelled fuel2 start e s) := by
  refine ⟨?_, findIntervals_fuel_congr sampler cancelled fuel1 fuel2 start e s⟩
  intro h
  unfold midSplit
  omega

/-- Witness for C10 at the interval [0, 5] with fuels 6 and 40. -/
theorem C10_search_terminates_witness :
    (midSplit 0 5 - 0 < 5 - 0 ∧ 5 - (midSplit 0 5 + 1) < 5 - 0) ∧
    findIntervals uniformSampler false 6 0 5 newGenerationInit =
      findIntervals uniformSampler false 40 0 5 newGenerationInit := by
  exact ⟨(C10_search_terminates uniformSampler false 0 5 6 40 newGenerationInit).1
      (by decide),
    (C10_search_terminates uniformSampler false 0 5 6 40 newGenerationInit).2
      (by decide) (by decide)⟩

/-- C1 fails as stated: with an empty cache, two concurrent getColor calls
for hue 7 both miss the cache before either fetch resolves and issue two
underlying sampler calls, not one. -/
theorem C1_counterexample :
    ¬ (twoConcurrentGets uniformSampler 7 newGenerationInit).2.fetches = 1 ∧
    (twoConcurrentGets uniformSampler 7 newGenerationInit).2.fetches = 2 := by
  decide

/-- C1 (amended): the cache deduplicates only resolved entries: a getColor
call that finds a resolved entry for the point returns it with no sampler
call, but two callers that both arrive while no entry is resolved each
issue their own sampler call (there is no promise-collapsing for in-flight
requests). -/
theorem C1_resolved_dedup_only (sampler : Nat → Option Color) (hue : Nat)
    (s : St) (c : Color) :
    (lookupHue s.cache hue = some c → getColor sampler hue s = (Except.ok c, s)) ∧
    (lookupHue s.cache hue = none →
      (twoConcurrentGets sampler hue s).2.fetches = s.fetches + 2) := by
  constructor
  · intro h
    unfold getColor
    rw [h]
  · intro h
    unfold twoConcurrentGets
    rw [h]
    cases sampler hue <;> rfl

/-- Witness for C1: a resolved entry for hue 7 is returned without a
fetch, and a miss at hue 9 costs two fetches for two concurrent callers. -/
theorem C1_resolved_dedup_only_witness :
    getColor uniformSampler 7 cachedSt = (Except.ok ⟨"X", 7⟩, cachedSt) ∧
    (twoConcurrentGets uniformSampler 9 newGenerationInit).2.fetches =
      newGenerationInit.fetches + 2 := by
  exact ⟨(C1_resolved_dedup_only uniformSampler 7 cachedSt ⟨"X", 7⟩).1 (by decide),
    (C1_resolved_dedup_only uniformSampler 9 newGenerationInit ⟨"X", 9⟩).2 (by decide)⟩

/-- C3 fails as stated: a write-back from a superseded generation lands in
the shared cache after the new generation has reset it, and the new
generation then reads the stale color with no fetch of its own, although
its sampler returns a different color for that hue. -/
theorem C3_counterexample :
    (getColor newSampler 5 (getColorResolve 5 staleColor newGenerationInit)).1 =
      Except.ok staleColor ∧
    newSampler 5 ≠ some staleColor ∧
    (getColor newSampler 5 (getColorResolve 5 staleColor newGenerationInit)).2.fetches
      = 0 := by
  refine ⟨rfl, by decide, rfl⟩

/-- C3 (amended): a stale root settle never clears the loading flag (the
settle continuation is guarded by the cancelled flag), and a superseded
search emits nothing to the colors state or the seen set once its
cancelled flag is set; but the cache is one structure shared across
generations and the getColor write-back is unguarded, so a stale sampler
resolution is visible to the newer generation reading the same cache. -/
theorem C3_stale_generation (sampler : Nat → Option Color)
    (fuel start e hue : Nat) (s : St) (data : Color) :
    settleClearLoading true s = s ∧
    (findIntervals sampler true fuel start e s).2.colors = s.colors ∧
    (findIntervals sampler true fuel start e s).2.seen = s.seen ∧
    lookupHue (getColorResolve hue data newGenerationInit).cache hue = some data := by
  refine ⟨rfl, (findIntervals_cancelled_no_emit sampler fuel start e s).1,
    (findIntervals_cancelled_no_emit sampler fuel start e s).2.1, ?_⟩
  simp [getColorResolve, newGenerationInit, lookupHue]

/-- C4 fails as stated: with cancellation signaled before the invocation
begins (so the fetch signal is already aborted), findIntervals on [3, 7]
with an empty cache still issues one fetchColor call, which the aborted
signal rejects immediately, and the branch terminates by rejection - not
by the claimed silent return with no sampler call at a check before
sampling. -/
theorem C4_counterexample :
    ¬ (findIntervals (abortedSampler uniformSampler true) true 10 3 7
        newGenerationInit).2.fetches = 0 ∧
    (findIntervals (abortedSampler uniformSampler true) true 10 3 7
        newGenerationInit).2.fetches = 1 ∧
    (findIntervals (abortedSampler uniformSampler true) true 10 3 7
        newGenerationInit).1 = Except.error () := by
  refine ⟨by decide, by decide, rfl⟩

/-- C4 (amended): findIntervals reads the cancellation flag exactly once,
after awaiting both endpoint samples and before emitting or recursing, and
cancellation also aborts the fetch signal; so with cancellation signaled
nothing is ever emitted (colors and seen are unchanged), an invocation
whose start endpoint is uncached issues exactly one fetchColor call, which
rejects immediately under the aborted signal so that the branch rejects
with no cache write and the second endpoint is never requested, and an
invocation whose two endpoints are already cached returns through the
single post-await check with no sampler call and the state untouched. -/
theorem C4_single_check (sampler : Nat → Option Color) (fuel start e : Nat)
    (s : St) :
    (findIntervals (abortedSampler sampler true) true fuel start e s).2.colors =
      s.colors ∧
    (findIntervals (abortedSampler sampler true) true fuel start e s).2.seen =
      s.seen ∧
    (lookupHue s.cache start = none →
      findIntervals (abortedSampler sampler true) true (fuel + 1) start e s =
        (Except.error (), { s with fetches := s.fetches + 1 })) ∧
    (∀ cs ce, lookupHue s.cache start = some cs → lookupHue s.cache e = some ce →
      findIntervals (abortedSampler sampler true) true (fuel + 1) start e s =
        (Except.ok (), s)) := by
  refine ⟨(findIntervals_cancelled_no_emit (abortedSampler sampler true)
      fuel start e s).1,
    (findIntervals_cancelled_no_emit (abortedSampler sampler true)
      fuel start e s).2.1, ?_, ?_⟩
  · intro h1
    have g1 : getColor (abortedSampler sampler true) start s =
        (Except.error (), { s with fetches := s.fetches + 1 }) := by
      simp [getColor, abortedSampler, h1]
    rw [findIntervals_succ]
    dsimp only
    rw [g1]
  · intro cs ce hs he
    have g1 : getColor (abortedSampler sampler true) start s =
        (Except.ok cs, s) := by
      simp [getColor, hs]
    have g2 : getColor (abortedSampler sampler true) e s =
        (Except.ok ce, s) := by
      simp [getColor, he]
    rw [findIntervals_succ]
    dsimp only
    rw [g1]
    dsimp only
    rw [g2]
    rfl

/-- C7: for every emission sequence and interleaving that produced the
colors state, the list read through colorsSorted is sorted by the h field
ascending, and it is a permutation of the stored colors: the order is
derived by sorting on each read, not by the emission order. -/
theorem C7_read_sorted (l : List Color) :
    List.Sorted hueLE (colorsSorted l) ∧ List.Perm (colorsSorted l) l :=
  ⟨List.sorted_insertionSort hueLE l, List.perm_insertionSort hueLE l⟩

/-- Aggregator invariant: folding any emission sequence through
addColorIfUnique keeps the stored names pairwise distinct, and every
stored name is recorded in the seen set. -/
theorem addAll_invariant (cs : List Color) :
    ∀ (s : St),
      ((s.colors.map Color.name).Nodup ∧ ∀ c ∈ s.colors, c.name ∈ s.seen) →
      (((addAll cs s).colors.map Color.name).Nodup ∧
        ∀ c ∈ (addAll cs s).colors, c.name ∈ (addAll cs s).seen) := by
  induction cs with
  | nil => intro s h; exact h
  | cons d rest ih =>
    intro s h
    have hstep :
        (((addColorIfUnique d s).colors.map Color.name).Nodup ∧
          ∀ c ∈ (addColorIfUnique d s).colors,
            c.name ∈ (addColorIfUnique d s).seen) := by
      unfold addColorIfUnique
      by_cases hd : d.name ∈ s.seen
      · rw [if_pos hd]; exact h
      · rw [if_neg hd]
        refine ⟨?_, ?_⟩
        · dsimp only
          rw [List.map_append]
          refine List.Nodup.append h.1 (by simp) ?_
          intro a ha hb
          obtain ⟨c, hcmem, hcname⟩ := List.mem_map.mp ha
          simp only [List.map_cons, List.map_nil, List.mem_singleton] at hb
          exact hd (by rw [← hb, ← hcname]; exact h.2 c hcmem)
        · dsimp only
          intro c hc
          rcases List.mem_append.mp hc with hmem | hmem
          · exact List.mem_cons_of_mem _ (h.2 c hmem)
          · rw [List.mem_singleton.mp hmem]
            exact List.mem_cons_self _ _
    exact ih (addColorIfUnique d s) hstep

/-- C8: addColorIfUnique is idempotent (adding the same color twice equals
adding it once), inserting a color whose name is already in the seen set
leaves the state unchanged, and after any sequence of insertions starting
from the fresh generation state the colors state holds at most one color
per distinct name. -/
theorem C8_addIfUnique_idempotent (c : Color) (s : St) (cs : List Color) :
    addColorIfUnique c (addColorIfUnique c s) = addColorIfUnique c s ∧
    (c.name ∈ s.seen → addColorIfUnique c s = s) ∧
    ((addAll cs newGenerationInit).colors.map Color.name).Nodup := by
  refine ⟨?_, ?_, ?_⟩
  · by_cases h : c.name ∈ s.seen
    · simp [addColorIfUnique, h]
    · simp [addColorIfUnique, h]
  · intro h
    simp [addColorIfUnique, h]
  · exact (addAll_invariant cs newGenerationInit (by simp [newGenerationInit])).1

/-- Witness for C8: inserting a color whose name is already seen leaves a
concrete state unchanged. -/
theorem C8_addIfUnique_idempotent_witness :
    addColorIfUnique ⟨"X", 3⟩ (⟨[], 0, ["X"], [], true⟩ : St) =
      (⟨[], 0, ["X"], [], true⟩ : St) :=
  (C8_addIfUnique_idempotent ⟨"X", 3⟩ ⟨[], 0, ["X"], [], true⟩ []).2.1 (by decide)

/-- In a burst where every update arrives strictly before the previous
timer of the debounce would fire, only the timer armed by the last update
fires, at the last update time plus the delay. -/
theorem debounceFireTimes_burst (delay : Nat) :
    ∀ (ts : List Nat) (t : Nat),
      List.Chain' (fun a b => b < a + delay) (t :: ts) →
      debounceFireTimes delay (t :: ts) =
        [(t :: ts).getLast (List.cons_ne_nil t ts) + delay] := by
  intro ts
  induction ts with
  | nil => intro t _; rfl
  | cons t2 rest ih =>
    intro t h
    obtain ⟨h12, hrest⟩ := List.chain'_cons.mp h
    have hdef : debounceFireTimes delay (t :: t2 :: rest) =
        (if t + delay ≤ t2 then [t + delay] else []) ++
          debounceFireTimes delay (t2 :: rest) := rfl
    rw [hdef, if_neg (by omega), List.nil_append, ih t2 hrest]
    rw [List.getLast_cons (List.cons_ne_nil t2 rest)]

/-- C9: the debounce is trailing-edge only: in any burst of context
updates each spaced strictly below the delay, every earlier timer is
cancelled by the next update, exactly one debounced settle happens, and it
happens one full delay after the last update of the burst, so the burst
opens exactly one generation. -/
theorem C9_debounce_coalesces (delay t : Nat) (ts : List Nat)
    (h : List.Chain' (fun a b => b < a + delay) (t :: ts)) :
    debounceFireTimes delay (t :: ts) =
      [(t :: ts).getLast (List.cons_ne_nil t ts) + delay] ∧
    debounceFires delay (t :: ts) = 1 := by
  refine ⟨debounceFireTimes_burst delay ts t h, ?_⟩
  unfold debounceFires
  rw [debounceFireTimes_burst delay ts t h]
  rfl

/-- Witness for C9: five updates inside 50 ms against a 200 ms delay fire
once, 200 ms after the last update. -/
theorem C9_debounce_coalesces_witness :
    debounceFireTimes 200 [0, 10, 20, 30, 40] = [240] ∧
    debounceFires 200 [0, 10, 20, 30, 40] = 1 := by
  simpa using C9_debounce_coalesces 200 0 [10, 20, 30, 40]
    (by norm_num [List.chain'_cons])

/-- Witness for C4: under cancellation, an uncached invocation on [0, 9]
rejects after one aborted fetch, and an invocation whose endpoints are
cached, here [7, 7] against cachedSt, returns with the state untouched. -/
theorem C4_single_check_witness :
    findIntervals (abortedSampler uniformSampler true) true (4 + 1) 0 9
        newGenerationInit =
      (Except.error (),
        { newGenerationInit with fetches := newGenerationInit.fetches + 1 }) ∧
    findIntervals (abortedSampler uniformSampler true) true (4 + 1) 7 7 cachedSt =
      (Except.ok (), cachedSt) := by
  exact ⟨(C4_single_check uniformSampler 4 0 9 newGenerationInit).2.2.1 (by decide),
    (C4_single_check uniformSampler 4 7 7 cachedSt).2.2.2 ⟨"X", 7⟩ ⟨"X", 7⟩
      (by decide) (by decide)⟩

/-- C5: for every interval, after obtaining the samples at start and end
the search proceeds by exactly the three exclusive cases of the source:
equal names emit the start sample once and stop; distinct names on an
interval with no interior point emit both samples; otherwise the interval
is split at midSplit, which is the floor of the average, and exactly the
two subintervals [start, mid] and [mid + 1, e] are searched, the call
settling only after both subcalls have, with their outcomes joined. -/
theorem C5_case_analysis (sampler : Nat → Option Color) (fuel start e : Nat)
    (s : St) (cs ce : Color)
    (hs : (getColor sampler start s).1 = Except.ok cs)
    (he : (getColor sampler e (getColor sampler start s).2).1 = Except.ok ce) :
    (cs.name = ce.name →
      findIntervals sampler false (fuel + 1) start e s =
        (Except.ok (),
          addColorIfUnique cs (getColor sampler e (getColor sampler start s).2).2)) ∧
    (cs.name ≠ ce.name → e - start ≤ 1 →
      findIntervals sampler false (fuel + 1) start e s =
        (Except.ok (), addColorIfUnique ce (addColorIfUnique cs
          (getColor sampler e (getColor sampler start s).2).2))) ∧
    (cs.name ≠ ce.name → 2 ≤ e - start →
      midSplit start e = (start + e) / 2 ∧
      findIntervals sampler false (fuel + 1) start e s =
        (promiseAll
          (findIntervals sampler false fuel start (midSplit start e)
            (getColor sampler e (getColor sampler start s).2).2).1
          (findIntervals sampler false fuel (midSplit start e + 1) e
            (findIntervals sampler false fuel start (midSplit start e)
              (getColor sampler e (getColor sampler start s).2).2).2).1,
         (findIntervals sampler false fuel (midSplit start e + 1) e
           (findIntervals sampler false fuel start (midSplit start e)
             (getColor sampler e (getColor sampler start s).2).2).2).2)) := by
  have hbody : findIntervals sampler false (fuel + 1) start e s =
      (if cs.name = ce.name then
        (Except.ok (),
          addColorIfUnique cs (getColor sampler e (getColor sampler start s).2).2)
      else if e - start ≤ 1 then
        (Except.ok (), addColorIfUnique ce (addColorIfUnique cs
          (getColor sampler e (getColor sampler start s).2).2))
      else
        (promiseAll
          (findIntervals sampler false fuel start (midSplit start e)
            (getColor sampler e (getColor sampler start s).2).2).1
          (findIntervals sampler false fuel (midSplit start e + 1) e
            (findIntervals sampler false fuel start (midSplit start e)
              (getColor sampler e (getColor sampler start s).2).2).2).1,
         (findIntervals sampler false fuel (midSplit start e + 1) e
           (findIntervals sampler false fuel start (midSplit start e)
             (getColor sampler e (getColor sampler start s).2).2).2).2)) := by
    rw [findIntervals_succ]
    dsimp only
    rw [hs]
    dsimp only
    rw [he]
    dsimp only
    rw [if_neg Bool.false_ne_true]
  refine ⟨?_, ?_, ?_⟩
  · intro hname
    rw [hbody, if_pos hname]
  · intro hname hlen
    rw [hbody, if_neg hname, if_pos hlen]
  · intro hname hlen
    refine ⟨rfl, ?_⟩
    rw [hbody, if_neg hname, if_neg (by omega : ¬ e - start ≤ 1)]

/-- Witness for C5 at the interval [0, 1] with the uniform sampler, which
lands in the equal-names case. -/
theorem C5_case_analysis_witness :
    findIntervals uniformSampler false (3 + 1) 0 1 newGenerationInit =
      (Except.ok (), addColorIfUnique ⟨"X", 0⟩
        (getColor uniformSampler 1 (getColor uniformSampler 0 newGenerationInit).2).2) :=
  (C5_case_analysis uniformSampler 3 0 1 newGenerationInit ⟨"X", 0⟩ ⟨"X", 1⟩
    rfl rfl).1 rfl

/-- C6: with a sampler that succeeds on the whole domain with one fixed
name, a generation issues exactly 4 sampler calls, at the four root
endpoints 359, 180, 179 and 0 with rootMid = 179, the aggregator ends
holding exactly one color, and the loading flag clears. -/
theorem C6_uniform_minimality (sampler : Nat → Option Color) (n : String)
    (h : ∀ p, p ≤ 359 → ∃ c, sampler p = some c ∧ c.name = n) :
    (runGeneration sampler false).fetches ≤ 4 ∧
    (runGeneration sampler false).colors.length = 1 ∧
    (runGeneration sampler false).cache.map Prod.fst = [359, 180, 179, 0] ∧
    (runGeneration sampler false).loading = false ∧
    rootMid = 179 := by
  obtain ⟨c0, hc0, hn0⟩ := h 0 (by omega)
  obtain ⟨c179, hc179, hn179⟩ := h 179 (by omega)
  obtain ⟨c180, hc180, hn180⟩ := h 180 (by omega)
  obtain ⟨c359, hc359, hn359⟩ := h 359 (by omega)
  have g0 : getColor sampler 0 newGenerationInit =
      (Except.ok c0, ⟨[(0, c0)], 1, [], [], true⟩) := by
    simp [getColor, lookupHue, newGenerationInit, hc0]
  have g179 : getColor sampler 179 (⟨[(0, c0)], 1, [], [], true⟩ : St) =
      (Except.ok c179, ⟨[(179, c179), (0, c0)], 2, [], [], true⟩) := by
    simp [getColor, lookupHue, hc179]
  have hleft : findIntervals sampler false 360 0 179 newGenerationInit =
      (Except.ok (), ⟨[(179, c179), (0, c0)], 2, [c0.name], [c0], true⟩) := by
    rw [show (360 : Nat) = 359 + 1 from rfl, findIntervals_succ]
    dsimp only
    rw [g0]
    dsimp only
    rw [g179]
    dsimp only
    rw [if_neg Bool.false_ne_true, if_pos (hn0.trans hn179.symm)]
    simp [addColorIfUnique]
  have g180 : getColor sampler 180
      (⟨[(179, c179), (0, c0)], 2, [c0.name], [c0], true⟩ : St) =
      (Except.ok c180,
        ⟨[(180, c180), (179, c179), (0, c0)], 3, [c0.name], [c0], true⟩) := by
    simp [getColor, lookupHue, hc180]
  have g359 : getColor sampler 359
      (⟨[(180, c180), (179, c179), (0, c0)], 3, [c0.name], [c0], true⟩ : St) =
      (Except.ok c359,
        ⟨[(359, c359), (180, c180), (179, c179), (0, c0)], 4,
          [c0.name], [c0], true⟩) := by
    simp [getColor, lookupHue, hc359]
  have hright : findIntervals sampler false 360 180 359
      (⟨[(179, c179), (0, c0)], 2, [c0.name], [c0], true⟩ : St) =
      (Except.ok (),
        ⟨[(359, c359), (180, c180), (179, c179), (0, c0)], 4,
          [c0.name], [c0], true⟩) := by
    rw [show (360 : Nat) = 359 + 1 from rfl, findIntervals_succ]
    dsimp only
    rw [g180]
    dsimp only
    rw [g359]
    dsimp only
    rw [if_neg Bool.false_ne_true, if_pos (hn180.trans hn359.symm)]
    simp [addColorIfUnique, hn180.trans hn0.symm]
  have hrun : runGeneration sampler false =
      ⟨[(359, c359), (180, c180), (179, c179), (0, c0)], 4,
        [c0.name], [c0], false⟩ := by
    unfold runGeneration
    rw [show rootMid = 179 from rfl]
    dsimp only
    rw [hleft]
    dsimp only
    rw [hright]
    dsimp only [promiseAll, settleClearLoading]
    rw [if_neg Bool.false_ne_true]
  rw [hrun]
  refine ⟨by norm_num, by simp, by simp, rfl, rfl⟩

/-- Witness for C6 with the uniform sampler. -/
theorem C6_uniform_minimality_witness :
    (runGeneration uniformSampler false).fetches ≤ 4 ∧
    (runGeneration uniformSampler false).colors.length = 1 ∧
    (runGeneration uniformSampler false).cache.map Prod.fst = [359, 180, 179, 0] ∧
    (runGeneration uniformSampler false).loading = false ∧
    rootMid = 179 :=
  C6_uniform_minimality uniformSampler "X" (fun p _ => ⟨⟨"X", p⟩, rfl, rfl⟩)

/-- C2 fails as stated: with a sampler that fails at hue 0 only, the
failed left root rejects the root join, the sibling right root still
settles and emits its one color, yet the loading flag never clears. -/
theorem C2_counterexample :
    ¬ (runGeneration failAtZero false).loading = false ∧
    (runGeneration failAtZero false).colors.length = 1 := by
  decide

/-- C2 (amended): a sampler failure at one point terminates only the
branch awaiting that point without emitting it and without a retry (one
fetch is spent on the failing point), and sibling branches already
launched still settle and emit independently; but the failure propagates
through every enclosing join to the root settle, which is skipped, so the
loading flag stays set instead of clearing. -/
theorem C2_failure_keeps_loading (sampler : Nat → Option Color) (n : String)
    (h0 : sampler 0 = none)
    (h : ∀ p, 180 ≤ p → p ≤ 359 → ∃ c, sampler p = some c ∧ c.name = n) :
    (runGeneration sampler false).loading = true ∧
    (runGeneration sampler false).colors.length = 1 ∧
    (runGeneration sampler false).fetches = 3 := by
  obtain ⟨c180, hc180, hn180⟩ := h 180 (by omega) (by omega)
  obtain ⟨c359, hc359, hn359⟩ := h 359 (by omega) (by omega)
  have g0 : getColor sampler 0 newGenerationInit =
      (Except.error (), ⟨[], 1, [], [], true⟩) := by
    simp [getColor, lookupHue, newGenerationInit, h0]
  have hleft : findIntervals sampler false 360 0 179 newGenerationInit =
      (Except.error (), ⟨[], 1, [], [], true⟩) := by
    rw [show (360 : Nat) = 359 + 1 from rfl, findIntervals_succ]
    dsimp only
    rw [g0]
  have g180 : getColor sampler 180 (⟨[], 1, [], [], true⟩ : St) =
      (Except.ok c180, ⟨[(180, c180)], 2, [], [], true⟩) := by
    simp [getColor, lookupHue, hc180]
  have g359 : getColor sampler 359 (⟨[(180, c180)], 2, [], [], true⟩ : St) =
      (Except.ok c359, ⟨[(359, c359), (180, c180)], 3, [], [], true⟩) := by
    simp [getColor, lookupHue, hc359]
  have hright : findIntervals sampler false 360 180 359
      (⟨[], 1, [], [], true⟩ : St) =
      (Except.ok (),
        ⟨[(359, c359), (180, c180)], 3, [c180.name], [c180], true⟩) := by
    rw [show (360 : Nat) = 359 + 1 from rfl, findIntervals_succ]
    dsimp only
    rw [g180]
    dsimp only
    rw [g359]
    dsimp only
    rw [if_neg Bool.false_ne_true, if_pos (hn180.trans hn359.symm)]
    simp [addColorIfUnique]
  have hrun : runGeneration sampler false =
      ⟨[(359, c359), (180, c180)], 3, [c180.name], [c180], true⟩ := by
    unfold runGeneration
    rw [show rootMid = 179 from rfl]
    dsimp only
    rw [hleft]
    dsimp only
    rw [hright]
    dsimp only [promiseAll]
  rw [hrun]
  exact ⟨rfl, rfl, rfl⟩

/-- Witness for C2 with the sampler that fails at hue 0 only. -/
theorem C2_failure_keeps_loading_witness :
    (runGeneration failAtZero false).loading = true ∧
    (runGeneration failAtZero false).colors.length = 1 ∧
    (runGeneration failAtZero false).fetches = 3 :=
  C2_failure_keeps_loading failAtZero "X" rfl
    (fun p h1 _ =>
      ⟨⟨"X", p⟩, by unfold failAtZero; rw [if_neg (by omega)], rfl⟩)

end ColorSwatches
